import Mathlib

/-!
Verification of the TsuryPhone Home Assistant integration
(`custom_components/tsuryphone`), centred on `coordinator.py`.

The Python code is shallowly embedded: each relevant Python function is
translated into an executable Lean definition over a JSON value type, with
Python exceptions modelled by `Option` and wall-clock time passed explicitly
as a natural number of seconds.
-/

namespace Tsury

/-! ## Python string primitives

Models of the Python `str` operations used by `parse_ring_pattern`:
`str.strip`, `str.split(',')`, `str.rsplit(sep, 1)`, the membership test
`sep in s`, and `int(s)` (which accepts surrounding whitespace, an optional
sign, and underscores between digits). -/

/-- Characters removed by Python `str.strip()` with no arguments. -/
def pyIsSpace (c : Char) : Bool :=
  c = ' ' || c = '\t' || c = '\n' || c = '\r' || c = '\x0b' || c = '\x0c'

/-- Python `str.strip()` on an explicit character list. -/
def pyStripList (cs : List Char) : List Char :=
  ((cs.dropWhile pyIsSpace).reverse.dropWhile pyIsSpace).reverse

/-- Python `str.strip()`. -/
def pyStrip (s : String) : String :=
  String.mk (pyStripList s.toList)

/-- Python `s.split(sep)` for a one-character separator: note that
splitting the empty string yields one empty token, as in Python. -/
def splitChar (sep : Char) : List Char → List (List Char)
  | [] => [[]]
  | c :: cs =>
    let r := splitChar sep cs
    if c = sep then [] :: r
    else
      match r with
      | [] => [[c]]
      | h :: t => (c :: h) :: t

/-- Python `s.rsplit(sep, 1)` restricted to the case where `sep` occurs in
`s`: splits at the last occurrence of `sep`, returning the part before and
the part after.  Returns `none` when `sep` does not occur. -/
def rsplitLast (sep : Char) : List Char → Option (List Char × List Char)
  | [] => none
  | c :: rest =>
    match rsplitLast sep rest with
    | some (a, b) => some (c :: a, b)
    | none => if c = sep then some ([], rest) else none

/-- No two adjacent underscores. -/
def pyNoDoubleUnderscore : List Char → Bool
  | '_' :: '_' :: _ => false
  | _ :: cs => pyNoDoubleUnderscore cs
  | [] => true

/-- Digit run as accepted by Python `int`: nonempty, made of decimal digits
with single underscores allowed strictly between digits. -/
def pyDigitRun : List Char → Bool
  | [] => false
  | c :: cs =>
    c.isDigit &&
      (match cs.getLast? with
       | some d => d.isDigit
       | none => true) &&
      cs.all (fun x => x.isDigit || x = '_') &&
      pyNoDoubleUnderscore (c :: cs)

/-- Numeric value of a digit run, ignoring underscores. -/
def pyDigitVal (cs : List Char) : Nat :=
  (cs.filter Char.isDigit).foldl (fun n c => 10 * n + (c.toNat - '0'.toNat)) 0

/-- Python `int(s)` on a character list: strips whitespace, accepts an
optional sign followed by a digit run; every other input raises
`ValueError`, modelled as `none`. -/
def pyIntList (cs : List Char) : Option Int :=
  match pyStripList cs with
  | '+' :: rest => if pyDigitRun rest then some (pyDigitVal rest : Int) else none
  | '-' :: rest => if pyDigitRun rest then some (-(pyDigitVal rest : Int)) else none
  | rest => if pyDigitRun rest then some (pyDigitVal rest : Int) else none

/-- Python `int(s)`. -/
def pyInt (s : String) : Option Int :=
  pyIntList s.toList

/-! ## Ring pattern parsing (`parse_ring_pattern`, coordinator.py lines 51-118)

The Python function returns a dict with keys `durations` and `repeats`, or
`None` on any parse failure (including an uncaught `ValueError` from `int`).
We return `Option (List Int × Int)`. -/

/-- The repeat-suffix handling of `parse_ring_pattern`: Python first checks
for an `x` separator, else a `/` separator, splitting from the right once;
the absence of both leaves the whole pattern with a repeat count of 1.
`int` failure on the repeat token propagates as `none`. -/
def splitRepeatSuffix (pattern : String) : Option (String × Int) :=
  if pattern.toList.contains 'x' then
    match rsplitLast 'x' pattern.toList with
    | some (a, b) =>
      match pyIntList b with
      | some r => some (String.mk a, r)
      | none => none
    | none => none
  else if pattern.toList.contains '/' then
    match rsplitLast '/' pattern.toList with
    | some (a, b) =>
      match pyIntList b with
      | some r => some (String.mk a, r)
      | none => none
    | none => none
  else some (pattern, 1)

/-- The duration loop of `parse_ring_pattern`: each comma token is stripped;
empty tokens are skipped (`continue`); a non-integer token raises
`ValueError` (propagated as `none`); a duration outside (0, 30000] returns
`None`. -/
def parseDurations : List (List Char) → Option (List Int)
  | [] => some []
  | p :: ps =>
    let t := pyStripList p
    if t = [] then parseDurations ps
    else
      match pyIntList t with
      | none => none
      | some d =>
        if d ≤ 0 ∨ d > 30000 then none
        else
          match parseDurations ps with
          | none => none
          | some ds => some (d :: ds)

/-- `parse_ring_pattern` (coordinator.py lines 51-118). -/
def parse_ring_pattern (pattern : String) : Option (List Int × Int) :=
  if pattern = "" then none
  else
    let p := pyStrip pattern
    if p = "" then none
    else
      match splitRepeatSuffix p with
      | none => none
      | some (main_pattern, repeats) =>
        if repeats ≤ 0 ∨ repeats > 100 then none
        else
          match parseDurations (splitChar ',' main_pattern.toList) with
          | none => none
          | some durations =>
            if durations = [] then none
            else if repeats > 1 ∧ durations.length % 2 ≠ 0 then none
            else some (durations, repeats)

example : parse_ring_pattern "2500,500,500,500x3" = some ([2500, 500, 500, 500], 3) := by decide
example : parse_ring_pattern "500/5" = none := by decide
example : parse_ring_pattern "" = none := by decide
example : parse_ring_pattern "0,500" = none := by decide
example : parse_ring_pattern "500x0" = none := by decide
example : parse_ring_pattern "500,500,500x2" = none := by decide
example : parse_ring_pattern "500,,600" = some ([500, 600], 1) := by decide
example : parse_ring_pattern "500," = some ([500], 1) := by decide
example : parse_ring_pattern "1000,200,1000" = some ([1000, 200, 1000], 1) := by decide
example : parse_ring_pattern " 500 , 500 x 3" = some ([500, 500], 3) := by decide
example : parse_ring_pattern "500,abc" = none := by decide
example : parse_ring_pattern "500x-2" = none := by decide
example : parse_ring_pattern "1_0,500x2" = some ([10, 500], 2) := by decide

/-! ## JSON values and Python dict operations

The coordinator passes decoded JSON around as Python dicts.  We embed JSON
values as an inductive type; objects are association lists in insertion
order (Python dicts preserve insertion order and hold each key once). -/

inductive Json where
  | null : Json
  | bool (b : Bool) : Json
  | num (n : Int) : Json
  | str (s : String) : Json
  | arr (elems : List Json) : Json
  | obj (fields : List (String × Json)) : Json
deriving Repr

/-- A decoded JSON object, i.e. a Python dict. -/
abbrev JDict := List (String × Json)

mutual

/-- Structural equality of JSON values, modelling Python `==` on decoded
JSON.  (For objects this compares fields in order; the coordinator only
ever compares scalar values, where this coincides with Python.) -/
def jsonEq : Json → Json → Bool
  | .null, .null => true
  | .bool a, .bool b => a = b
  | .num a, .num b => a = b
  | .str a, .str b => a = b
  | .arr a, .arr b => jsonEqList a b
  | .obj a, .obj b => jsonEqFields a b
  | _, _ => false

/-- Elementwise `jsonEq` on arrays. -/
def jsonEqList : List Json → List Json → Bool
  | [], [] => true
  | x :: xs, y :: ys => jsonEq x y && jsonEqList xs ys
  | _, _ => false

/-- Fieldwise `jsonEq` on objects. -/
def jsonEqFields : List (String × Json) → List (String × Json) → Bool
  | [], [] => true
  | (k, x) :: xs, (l, y) :: ys => k = l && jsonEq x y && jsonEqFields xs ys
  | _, _ => false

end

/-- Python truthiness of a decoded JSON value. -/
def pyTruthy : Json → Bool
  | .null => false
  | .bool b => b
  | .num n => n ≠ 0
  | .str s => s ≠ ""
  | .arr xs => !xs.isEmpty
  | .obj fs => !fs.isEmpty

/-- Python `d[k]` lookup returning the first (unique) binding. -/
def dictGet? (d : JDict) (k : String) : Option Json :=
  match d with
  | [] => none
  | (k', v) :: rest => if k' = k then some v else dictGet? rest k

/-- Python `d.get(k, default)`. -/
def dictGetD (d : JDict) (k : String) (dflt : Json) : Json :=
  (dictGet? d k).getD dflt

/-- Python `k in d`. -/
def hasKey (d : JDict) (k : String) : Bool :=
  (dictGet? d k).isSome

/-- Python `d[k] = v`: replaces the value of an existing key in place,
otherwise appends the new key at the end (insertion order). -/
def dictSet (d : JDict) (k : String) (v : Json) : JDict :=
  match d with
  | [] => [(k, v)]
  | (k', v') :: rest => if k' = k then (k, v) :: rest else (k', v') :: dictSet rest k v

/-- Setting every field of `src` into `dst`, in order: the inner loops of
`_merge_status_data` for the `wifi` and `call` categories. -/
def dictSetAll (dst : JDict) (src : JDict) : JDict :=
  src.foldl (fun acc kv => dictSet acc kv.1 kv.2) dst

/-! ## `_merge_status_data` (coordinator.py lines 637-676)

Merges a (possibly partial) status update into the existing status dict:
top-level keys are overwritten; for the keys `wifi` and `call`, when the
update value is a dict and the key already exists, the nested dicts are
merged field by field (with a non-dict existing value first reset to an
empty dict). -/

/-- One iteration of the `for key, value in new_status.items()` loop of
`_merge_status_data`. -/
def mergeStep (existing_status : JDict) (kv : String × Json) : JDict :=
  let key := kv.1
  let value := kv.2
  if key = "wifi" then
    match value with
    | .obj vf =>
      if hasKey existing_status key then
        let base : JDict :=
          match dictGet? existing_status key with
          | some (.obj fields) => fields
          | _ => []
        dictSet existing_status key (.obj (dictSetAll base vf))
      else dictSet existing_status key value
    | _ => dictSet existing_status key value
  else if key = "call" then
    match value with
    | .obj vf =>
      if hasKey existing_status key then
        let base : JDict :=
          match dictGet? existing_status key with
          | some (.obj fields) => fields
          | _ => []
        dictSet existing_status key (.obj (dictSetAll base vf))
      else dictSet existing_status key value
    | _ => dictSet existing_status key value
  else dictSet existing_status key value

/-- `_merge_status_data(existing_status, new_status)`. -/
def mergeStatusData (existing_status new_status : JDict) : JDict :=
  new_status.foldl mergeStep existing_status

example :
    mergeStatusData
      [("call", .obj [("id", .num 7), ("number", .str "555")]),
       ("wifi", .obj [("rssi", .num (-40))])]
      [("call", .obj [("number", .str "556")])] =
    [("call", .obj [("id", .num 7), ("number", .str "556")]),
     ("wifi", .obj [("rssi", .num (-40))])] := rfl

/-! ## Call log (`CallLogEntry`, `_add_call_log_entry`,
`_update_last_call_duration`; coordinator.py lines 122-130, 737-756)

Wall-clock instants (`datetime.now()`) are modelled as natural numbers of
seconds, passed explicitly; `(b - a).total_seconds()` becomes natural
subtraction since the clock is monotone. -/

structure CallLogEntry where
  timestamp : Nat
  call_type : String
  number : Json
  duration : Int
  state : Json
deriving Repr

/-- `self._max_call_log_entries` (coordinator.py line 156). -/
def maxCallLogEntries : Nat := 100

/-- `_add_call_log_entry`: insert the new entry at index 0, then truncate
to the first `maxCallLogEntries` entries if the log grew past the cap. -/
def addCallLogEntry (now : Nat) (call_type : String) (number : Json)
    (duration : Int) (state : Json) (log : List CallLogEntry) : List CallLogEntry :=
  let log := (⟨now, call_type, number, duration, state⟩ : CallLogEntry) :: log
  if log.length > maxCallLogEntries then log.take maxCallLogEntries else log

/-- `_update_last_call_duration`: back-fill the duration of the entry at
index 0, but only when that entry still has the placeholder duration 0. -/
def updateLastCallDuration (duration : Int) (log : List CallLogEntry) : List CallLogEntry :=
  match log with
  | [] => []
  | e :: rest => if e.duration = 0 then { e with duration := duration } :: rest else e :: rest

/-! ## `_process_status_for_call_log` (coordinator.py lines 677-712) -/

/-- The coordinator fields `_last_state`, `_last_call_number` and
`_call_start_time` (coordinator.py lines 159-161).  The first two hold
whatever JSON values the status carried. -/
structure CallTrackState where
  lastState : Json
  lastCallNumber : Json
  callStartTime : Option Nat
deriving Repr

/-- Initial tracking state from `__init__`. -/
def initialCallTrackState : CallTrackState :=
  { lastState := .str "", lastCallNumber := .str "", callStartTime := none }

/-- `_process_status_for_call_log(status)` at instant `now`.  Any exception
inside the body (e.g. `status["call"]` not being a dict, so that `.get`
raises) is caught by the surrounding `except` and leaves all fields
unchanged. -/
def processStatusForCallLog (now : Nat) (st : CallTrackState)
    (log : List CallLogEntry) (status : Json) : CallTrackState × List CallLogEntry :=
  match status with
  | .obj fields =>
    let current_state := dictGetD fields "state" (.str "")
    match dictGetD fields "call" (.obj []) with
    | .obj callFields =>
      let current_call_number :=
        if pyTruthy (dictGetD callFields "active" .null) then
          dictGetD callFields "number" (.str "")
        else .str ""
      if (jsonEq current_state (.str "IncomingCall") || jsonEq current_state (.str "InCall"))
          && pyTruthy current_call_number
          && (!jsonEq current_state st.lastState
              || !jsonEq current_call_number st.lastCallNumber) then
        let st' := { st with callStartTime := some now, lastCallNumber := current_call_number }
        let log' :=
          if jsonEq current_state (.str "IncomingCall")
              && !jsonEq st'.lastState (.str "IncomingCall") then
            addCallLogEntry now "incoming" current_call_number 0 current_state log
          else log
        ({ st' with lastState := current_state }, log')
      else if (jsonEq st.lastState (.str "IncomingCall") || jsonEq st.lastState (.str "InCall"))
          && !(jsonEq current_state (.str "IncomingCall")
               || jsonEq current_state (.str "InCall"))
          && st.callStartTime.isSome then
        match st.callStartTime with
        | some t0 =>
          let duration : Int := ((now - t0 : Nat) : Int)
          let log' :=
            if jsonEq st.lastState (.str "InCall") then updateLastCallDuration duration log
            else log
          ({ lastState := current_state, lastCallNumber := .str "", callStartTime := none }, log')
        | none => ({ st with lastState := current_state }, log)
      else ({ st with lastState := current_state }, log)
    | _ => (st, log)
  | _ => (st, log)

/-- Feeding a timestamped sequence of status messages through
`_process_status_for_call_log`, as the streaming channel does. -/
def processStatusSeq (msgs : List (Nat × Json)) (st : CallTrackState)
    (log : List CallLogEntry) : CallTrackState × List CallLogEntry :=
  msgs.foldl (fun acc m => processStatusForCallLog m.1 acc.1 acc.2 m.2) (st, log)

/-! ## `_process_stats_for_call_log` (coordinator.py lines 714-735) -/

/-- The coordinator fields `_last_total_outgoing` and `_last_total_blocked`
(coordinator.py lines 164-165), both initialised to 0. -/
structure StatsTrackState where
  lastTotalOutgoing : Int
  lastTotalBlocked : Int
deriving Repr, DecidableEq

/-- Initial stats tracking state from `__init__`. -/
def initialStatsTrackState : StatsTrackState :=
  { lastTotalOutgoing := 0, lastTotalBlocked := 0 }

/-- The `for _ in range(count_diff)` loop: append `n` synthetic blocked
entries through `_add_call_log_entry`. -/
def addBlockedEntries (now : Nat) : Nat → List CallLogEntry → List CallLogEntry
  | 0, log => log
  | n + 1, log =>
    addBlockedEntries now n (addCallLogEntry now "blocked" (.str "Unknown") 0 (.str "Blocked") log)

/-- `_process_stats_for_call_log(stats)` at instant `now`.  A non-integer
counter value makes the `>` comparison raise; the surrounding `except`
then leaves all fields unchanged. -/
def processStatsForCallLog (now : Nat) (sst : StatsTrackState)
    (log : List CallLogEntry) (stats : Json) : StatsTrackState × List CallLogEntry :=
  match stats with
  | .obj fields =>
    match dictGetD fields "total_outgoing_calls" (.num 0),
        dictGetD fields "total_blocked_calls" (.num 0) with
    | .num total_outgoing, .num total_blocked =>
      let log' :=
        if total_blocked > sst.lastTotalBlocked then
          addBlockedEntries now (total_blocked - sst.lastTotalBlocked).toNat log
        else log
      ({ lastTotalOutgoing := total_outgoing, lastTotalBlocked := total_blocked }, log')
    | _, _ => (sst, log)
  | _ => (sst, log)

/-! ## `_async_update_data` (coordinator.py lines 208-260)

The two concurrent fetches are passed in as results: `some payload` for a
successful fetch, `none` for a fetch that returned an exception (network
error or timeout).  The function returns the new snapshot (`none` when it
raises `UpdateFailed`) together with the coordinator's mutable call-log
state, which survives either way — the session is never torn down. -/

/-- `get_call_log()`: the call log rendered into the snapshot. -/
def renderCallLog (log : List CallLogEntry) : Json :=
  .arr (log.map fun e =>
    .obj [("timestamp", .num e.timestamp), ("type", .str e.call_type),
          ("number", e.number), ("duration", .num e.duration), ("state", e.state)])

/-- The coordinator's call-log bookkeeping state. -/
structure CoordState where
  track : CallTrackState
  statsTrack : StatsTrackState
  callLog : List CallLogEntry

/-- `_async_update_data` at instant `now`, starting from the previous
snapshot `prior` (i.e. `self.data`), given the outcomes of the status and
stats fetches. -/
def asyncUpdateData (now : Nat) (cs : CoordState) (prior : JDict)
    (statusRes statsRes : Option Json) : Option JDict × CoordState :=
  let step1 :=
    match statusRes with
    | some s =>
      let p := processStatusForCallLog now cs.track cs.callLog s
      (dictSet prior "status" s, p.1, p.2)
    | none => (prior, cs.track, cs.callLog)
  let step2 :=
    match statsRes with
    | some t =>
      let p := processStatsForCallLog now cs.statsTrack step1.2.2 t
      (dictSet step1.1 "stats" t, p.1, p.2)
    | none => (step1.1, cs.statsTrack, step1.2.2)
  let log := step2.2.2
  let data := dictSet step2.1 "call_log" (renderCallLog log)
  let cs' : CoordState := { track := step1.2.1, statsTrack := step2.2.1, callLog := log }
  if !hasKey data "status" && !hasKey data "stats" then (none, cs')
  else (some data, cs')

/-! ## Reconnect backoff (`_websocket_handler`, coordinator.py lines 512-635) -/

/-- The backoff delay (in seconds) computed at the bottom of the
`_websocket_handler` loop from the current `connection_attempts` counter
(coordinator.py lines 621-627). -/
def backoffDelay (connection_attempts : Nat) : Nat :=
  if connection_attempts = 1 then 1
  else if connection_attempts ≤ 3 then 5
  else min (10 * 2 ^ (min (connection_attempts - 4) 2)) 30

/-- Outcome of one connection attempt of the handler loop. -/
inductive ConnectOutcome where
  | success : ConnectOutcome
  | failure : ConnectOutcome

/-- The evolution of `connection_attempts` over one iteration of the
handler loop: the counter is incremented before the attempt, and reset to
zero immediately after a successful connection (coordinator.py lines
519, 534). -/
def wsIterate (connection_attempts : Nat) (outcome : ConnectOutcome) : Nat :=
  let a := connection_attempts + 1
  match outcome with
  | .success => 0
  | .failure => a

/-! ## `ring_device_with_pattern` (coordinator.py lines 294-307) -/

/-- A request POSTed to the unified `/action` endpoint by
`_make_action_request`: the action name plus its data payload. -/
structure ActionRequest where
  action : String
  payload : JDict
deriving Repr

/-- `ACTION_RING_PATTERN` (const.py line 54). -/
def ACTION_RING_PATTERN : String := "ring_pattern"

/-- `ring_device_with_pattern(pattern)`: parse the pattern text; on parse
failure raise `ValueError` (modelled as `none`) without any device
request; on success issue exactly one `ring_pattern` action request
carrying the parsed durations and repeat count.  The returned list holds
the action requests made. -/
def ring_device_with_pattern (pattern : String) : Option (List ActionRequest) :=
  match parse_ring_pattern pattern with
  | none => none
  | some parsed =>
    some [{ action := ACTION_RING_PATTERN,
            payload := [("durations", .arr (parsed.1.map Json.num)),
                        ("repeats", .num parsed.2)] }]

/-! ## Helper lemmas -/

theorem dictGet?_dictSet_self (d : JDict) (k : String) (v : Json) :
    dictGet? (dictSet d k v) k = some v := by
  induction d with
  | nil => simp [dictSet, dictGet?]
  | cons kv rest ih =>
    obtain ⟨k', v'⟩ := kv
    by_cases h : k' = k
    · subst h; simp [dictSet, dictGet?]
    · simp [dictSet, dictGet?, h, ih]

theorem dictGet?_dictSet_ne (d : JDict) (k k' : String) (v : Json) (h : k' ≠ k) :
    dictGet? (dictSet d k v) k' = dictGet? d k' := by
  induction d with
  | nil =>
    simp only [dictSet, dictGet?]
    rw [if_neg (Ne.symm h)]
  | cons kv rest ih =>
    obtain ⟨k₁, v₁⟩ := kv
    by_cases h1 : k₁ = k
    · subst h1
      simp only [dictSet, if_pos rfl, dictGet?]
      rw [if_neg (Ne.symm h), if_neg (Ne.symm h)]
    · simp only [dictSet, if_neg h1, dictGet?, ih]

theorem hasKey_dictSet_ne (d : JDict) (k k' : String) (v : Json) (h : k' ≠ k) :
    hasKey (dictSet d k v) k' = hasKey d k' := by
  simp [hasKey, dictGet?_dictSet_ne d k k' v h]

theorem hasKey_dictSet_of_hasKey (d : JDict) (k k' : String) (v : Json)
    (h : hasKey d k' = true) : hasKey (dictSet d k v) k' = true := by
  by_cases hk : k' = k
  · subst hk; simp [hasKey, dictGet?_dictSet_self]
  · rwa [hasKey_dictSet_ne d k k' v hk]

theorem hasKey_mergeStep (ex : JDict) (kv : String × Json) (k' : String)
    (h : hasKey ex k' = true) : hasKey (mergeStep ex kv) k' = true := by
  obtain ⟨k, v⟩ := kv
  simp only [mergeStep]
  repeat' split
  all_goals exact hasKey_dictSet_of_hasKey _ _ _ _ h

theorem hasKey_mergeStatusData (ex new : JDict) (k' : String)
    (h : hasKey ex k' = true) : hasKey (mergeStatusData ex new) k' = true := by
  induction new generalizing ex with
  | nil => exact h
  | cons kv rest ih => exact ih (mergeStep ex kv) (hasKey_mergeStep ex kv k' h)

theorem dictGet?_mergeStep_ne (ex : JDict) (kv : String × Json) (c : String)
    (h : kv.1 ≠ c) : dictGet? (mergeStep ex kv) c = dictGet? ex c := by
  obtain ⟨k, v⟩ := kv
  simp only [mergeStep]
  repeat' split
  all_goals exact dictGet?_dictSet_ne _ _ _ _ (Ne.symm h)

theorem dictGet?_foldl_mergeStep_ne (rest : List (String × Json)) (d : JDict) (c : String)
    (h : ∀ kv ∈ rest, kv.1 ≠ c) :
    dictGet? (rest.foldl mergeStep d) c = dictGet? d c := by
  induction rest generalizing d with
  | nil => rfl
  | cons kv tl ih =>
    rw [List.foldl_cons, ih _ (fun x hx => h x (List.mem_cons_of_mem _ hx)),
      dictGet?_mergeStep_ne d kv c (h kv (List.mem_cons_self _ _))]

theorem dictGet?_dictSetAll_not_mem (src : JDict) (dst : JDict) (k : String)
    (h : hasKey src k = false) :
    dictGet? (dictSetAll dst src) k = dictGet? dst k := by
  induction src generalizing dst with
  | nil => rfl
  | cons kv rest ih =>
    obtain ⟨k₁, v₁⟩ := kv
    by_cases hk : k₁ = k
    · subst hk; simp [hasKey, dictGet?] at h
    · have h' : hasKey rest k = false := by simpa [hasKey, dictGet?, hk] using h
      rw [show dictSetAll dst ((k₁, v₁) :: rest) = dictSetAll (dictSet dst k₁ v₁) rest from rfl,
        ih _ h', dictGet?_dictSet_ne _ _ _ _ (fun hh => hk hh.symm)]

theorem hasKey_of_dictGet? (d : JDict) (k : String) (v : Json)
    (h : dictGet? d k = some v) : hasKey d k = true := by
  simp [hasKey, h]

theorem take_append_take (A B : List α) (n : Nat) :
    (A ++ B.take n).take n = (A ++ B).take n := by
  rw [List.take_append_eq_append_take, List.take_append_eq_append_take, List.take_take,
    Nat.min_eq_left (Nat.sub_le n A.length)]

theorem parseDurations_none_of_bad (parts : List (List Char))
    (h : ∃ p ∈ parts, pyStripList p ≠ [] ∧ pyIntList (pyStripList p) = none) :
    parseDurations parts = none := by
  induction parts with
  | nil => simp at h
  | cons p ps ih =>
    obtain ⟨q, hq, hne, hnone⟩ := h
    rcases List.mem_cons.mp hq with hq | hq
    · subst hq
      simp only [parseDurations]
      rw [if_neg hne, hnone]
    · have hrec := ih ⟨q, hq, hne, hnone⟩
      simp only [parseDurations]
      rw [hrec]
      repeat' split
      all_goals first
        | rfl
        | (rename_i heq; exact Option.noConfusion heq)

/-- Repeatedly appending existing records through `_add_call_log_entry`. -/
def appendEntries (es : List CallLogEntry) (log : List CallLogEntry) : List CallLogEntry :=
  es.foldl (fun l e => addCallLogEntry e.timestamp e.call_type e.number e.duration e.state l) log

theorem addCallLogEntry_eq_take (t : Nat) (ct : String) (nb : Json) (d : Int) (st : Json)
    (l : List CallLogEntry) :
    addCallLogEntry t ct nb d st l =
      ((⟨t, ct, nb, d, st⟩ : CallLogEntry) :: l).take maxCallLogEntries := by
  simp only [addCallLogEntry]
  split
  · rfl
  · next h => rw [List.take_of_length_le (Nat.le_of_not_lt h)]

theorem appendEntries_eq (es : List CallLogEntry) :
    ∀ l : List CallLogEntry, l.length ≤ maxCallLogEntries →
      appendEntries es l = (es.reverse ++ l).take maxCallLogEntries := by
  induction es with
  | nil =>
    intro l h
    simp only [appendEntries, List.foldl_nil, List.reverse_nil, List.nil_append]
    rw [List.take_of_length_le h]
  | cons e tl ih =>
    intro l h
    have step : appendEntries (e :: tl) l =
        appendEntries tl (addCallLogEntry e.timestamp e.call_type e.number e.duration e.state l) :=
      rfl
    rw [step, addCallLogEntry_eq_take]
    have hlen : ((e :: l).take maxCallLogEntries).length ≤ maxCallLogEntries := by
      rw [List.length_take]; exact Nat.min_le_left _ _
    rw [ih _ hlen, take_append_take, List.reverse_cons, List.append_assoc]
    rfl

/-! ## Claim theorems -/

/-- Claim C3 (code bug witness): the ring-pattern parser on the spec's
example inputs.  Five of the six behave as specified, but the input
"500/5" — which the function's own docstring documents as yielding
durations [500] with repeat count 5 — is rejected by the parity check,
because a repeat count greater than 1 demands an even number of
durations. -/
theorem ring_pattern_examples_c3 :
    parse_ring_pattern "2500,500,500,500x3" = some ([2500, 500, 500, 500], 3) ∧
    parse_ring_pattern "500/5" = none ∧
    parse_ring_pattern "" = none ∧
    parse_ring_pattern "0,500" = none ∧
    parse_ring_pattern "500x0" = none ∧
    parse_ring_pattern "500,500,500x2" = none :=
  ⟨by decide, by decide, by decide, by decide, by decide, by decide⟩

/-- The spec's C1 end-to-end sequence, verbatim: ringing state
"IncomingCallRing", then "InCall" with the same number, then "Idle",
observed at 0, 10 and 25 seconds. -/
def statusSeqRing : List (Nat × Json) :=
  [(0, .obj [("state", .str "IncomingCallRing"),
             ("call", .obj [("active", .bool true), ("number", .str "123")])]),
   (10, .obj [("state", .str "InCall"),
              ("call", .obj [("active", .bool true), ("number", .str "123")])]),
   (25, .obj [("state", .str "Idle"), ("call", .obj [("active", .bool false)])])]

/-- The same sequence with the first state replaced by "IncomingCall",
the only ringing state `_process_status_for_call_log` recognises. -/
def statusSeqIncoming : List (Nat × Json) :=
  [(0, .obj [("state", .str "IncomingCall"),
             ("call", .obj [("active", .bool true), ("number", .str "123")])]),
   (10, .obj [("state", .str "InCall"),
              ("call", .obj [("active", .bool true), ("number", .str "123")])]),
   (25, .obj [("state", .str "Idle"), ("call", .obj [("active", .bool false)])])]

/-- Claim C1 is false as stated: from a fresh session, the spec's
"IncomingCallRing" / "InCall" / "Idle" sequence appends no call-log entry
at all (the processor tracks only the states "IncomingCall" and
"InCall"; "IncomingCallRing" never triggers the incoming-entry append,
and at call end there is no entry to back-fill). -/
theorem incoming_call_log_c1_counterexample :
    (processStatusSeq statusSeqRing initialCallTrackState []).2 = [] ∧
    (processStatusSeq statusSeqRing initialCallTrackState []).2.length ≠ 1 :=
  ⟨rfl, by intro h; exact absurd h (by decide)⟩

/-- Claim C1 (amended): with "IncomingCall" as the ringing state — the
state the processor actually recognises — the sequence appends exactly one
call-log entry, of type "incoming", whose duration has been back-filled to
the non-zero elapsed time (15 seconds here). -/
theorem incoming_call_log_c1 :
    (processStatusSeq statusSeqIncoming initialCallTrackState []).2 =
      [{ timestamp := 0, call_type := "incoming", number := .str "123",
         duration := 15, state := .str "IncomingCall" }] ∧
    (processStatusSeq statusSeqIncoming initialCallTrackState []).2.length = 1 :=
  ⟨rfl, rfl⟩

/-- `backoffDelay` is constantly 30 from the sixth attempt on. -/
theorem backoffDelay_of_six_le (a : Nat) (ha : 6 ≤ a) : backoffDelay a = 30 := by
  have h1 : ¬ a = 1 := by omega
  have h2 : ¬ a ≤ 3 := by omega
  have h3 : min (a - 4) 2 = 2 := by omega
  simp only [backoffDelay, if_neg h1, if_neg h2, h3]
  decide

/-- Claim C5: the reconnect backoff delay is 1 for attempt 1, 5 for
attempts 2-3, and min(10 * 2^min(attempt-4, 2), 30) for attempts >= 4;
the delay sequence is monotonically non-decreasing from attempt 1 on and
bounded by the maximum 30; and the attempt counter is reset to zero
immediately after any successful connection. -/
theorem reconnect_backoff_c5 :
    backoffDelay 1 = 1 ∧
    (∀ a, 2 ≤ a → a ≤ 3 → backoffDelay a = 5) ∧
    (∀ a, 4 ≤ a → backoffDelay a = min (10 * 2 ^ min (a - 4) 2) 30) ∧
    (∀ a, 1 ≤ a → backoffDelay a ≤ backoffDelay (a + 1)) ∧
    (∀ a, backoffDelay a ≤ 30) ∧
    (∀ attempts, wsIterate attempts ConnectOutcome.success = 0) := by
  refine ⟨rfl, ?_, ?_, ?_, ?_, fun _ => rfl⟩
  · intro a h2 h3
    interval_cases a <;> rfl
  · intro a ha
    have h1 : ¬ a = 1 := by omega
    have h2 : ¬ a ≤ 3 := by omega
    simp only [backoffDelay, if_neg h1, if_neg h2]
  · intro a ha
    by_cases h : a ≤ 5
    · interval_cases a <;> decide
    · rw [backoffDelay_of_six_le a (by omega), backoffDelay_of_six_le (a + 1) (by omega)]
  · intro a
    by_cases h : a ≤ 6
    · interval_cases a <;> decide
    · rw [backoffDelay_of_six_le a (by omega)]

/-- Witness for C5 at concrete attempt numbers. -/
theorem reconnect_backoff_c5_witness :
    backoffDelay 2 = 5 ∧ backoffDelay 6 = min (10 * 2 ^ min (6 - 4) 2) 30 ∧
    backoffDelay 4 ≤ backoffDelay 5 ∧ backoffDelay 7 ≤ 30 :=
  ⟨reconnect_backoff_c5.2.1 2 (by decide) (by decide),
   reconnect_backoff_c5.2.2.1 6 (by decide),
   reconnect_backoff_c5.2.2.2.1 4 (by decide),
   reconnect_backoff_c5.2.2.2.2.1 7⟩

/-- Claim C8: `ring_device_with_pattern` first parses its argument; on
parse failure it raises without issuing any action request, and on parse
success it issues exactly one `ring_pattern` action request whose payload
carries the parsed durations and repeat count. -/
theorem ring_with_pattern_c8 :
    ∀ pattern : String,
      (parse_ring_pattern pattern = none → ring_device_with_pattern pattern = none) ∧
      (∀ durations repeats, parse_ring_pattern pattern = some (durations, repeats) →
        ring_device_with_pattern pattern =
          some [{ action := ACTION_RING_PATTERN,
                  payload := [("durations", Json.arr (durations.map Json.num)),
                              ("repeats", Json.num repeats)] }]) := by
  intro p
  constructor
  · intro h
    simp [ring_device_with_pattern, h]
  · intro ds r h
    simp [ring_device_with_pattern, h]

/-- Witness for C8: one failing and one succeeding pattern. -/
theorem ring_with_pattern_c8_witness :
    ring_device_with_pattern "bogus" = none ∧
    ring_device_with_pattern "2500,500x2" =
      some [{ action := ACTION_RING_PATTERN,
              payload := [("durations", Json.arr ([2500, 500].map Json.num)),
                          ("repeats", Json.num 2)] }] :=
  ⟨(ring_with_pattern_c8 "bogus").1 (by decide),
   (ring_with_pattern_c8 "2500,500x2").2 [2500, 500] 2 (by decide)⟩

/-- Claim C9: `_add_call_log_entry` inserts at index 0 and caps the log at
100 entries; after appending any 101 entries the log holds exactly 100,
the newest entry is at index 0 (head), and the first-appended entry has
been dropped; no append ever leaves more than 100 entries. -/
theorem call_log_cap_c9 :
    (∀ (t : Nat) (ct : String) (nb : Json) (d : Int) (st : Json) (l : List CallLogEntry),
        (addCallLogEntry t ct nb d st l).length ≤ 100) ∧
    (∀ es : List CallLogEntry, es.length = 101 →
        (appendEntries es []).length = 100 ∧
        (appendEntries es []).head? = es.getLast? ∧
        ∀ e0, es.head? = some e0 → es.Nodup → e0 ∉ appendEntries es []) := by
  constructor
  · intro t ct nb d st l
    rw [addCallLogEntry_eq_take, List.length_take]
    exact Nat.min_le_left _ _
  · intro es hlen
    have hkey : appendEntries es [] = es.reverse.take maxCallLogEntries := by
      rw [appendEntries_eq es [] (by simp [maxCallLogEntries]), List.append_nil]
    refine ⟨?_, ?_, ?_⟩
    · rw [hkey, List.length_take, List.length_reverse, hlen]
      decide
    · rw [hkey, List.head?_take, if_neg (by decide), List.head?_reverse]
    · intro e0 hhead hnodup
      rw [hkey]
      cases es with
      | nil => cases hhead
      | cons a tl =>
        have ha : a = e0 := Option.some.inj hhead
        subst ha
        have htl100 : tl.length = 100 := by simpa using hlen
        have htl : tl.reverse.length = maxCallLogEntries := by
          rw [List.length_reverse, htl100]
          rfl
        rw [List.reverse_cons, List.take_left' htl]
        rw [List.mem_reverse]
        exact ((List.nodup_cons.mp hnodup).1 ·)

/-- The 101 concrete entries used to witness C9. -/
def c9entries : List CallLogEntry :=
  (List.range 101).map fun i => ⟨i, "incoming", .str "", 0, .str ""⟩

/-- Witness for C9: appending 101 concrete entries leaves 100, and the
first-appended entry is gone. -/
theorem call_log_cap_c9_witness :
    (appendEntries c9entries []).length = 100 ∧
    (⟨0, "incoming", Json.str "", 0, Json.str ""⟩ : CallLogEntry) ∉ appendEntries c9entries [] := by
  have hlen : c9entries.length = 101 := by simp [c9entries]
  have h := call_log_cap_c9.2 c9entries hlen
  refine ⟨h.1, h.2.2 _ rfl ?_⟩
  exact List.Nodup.map (fun a b hab => congrArg CallLogEntry.timestamp hab) (List.nodup_range 101)

/-- A stats payload with the two cumulative counters the processor reads. -/
def mkStats (outgoing blocked : Int) : Json :=
  .obj [("total_outgoing_calls", .num outgoing), ("total_blocked_calls", .num blocked)]

/-- Claim C10: when the polled cumulative blocked-call counter does not
strictly increase, no blocked entries are appended and the remembered
counter is overwritten with the new value; on a strict increase of N,
exactly N blocked entries are appended; and after a counter reset a later
increase appends only the difference from the new baseline. -/
theorem blocked_counter_c10 :
    ∀ (now : Nat) (sst : StatsTrackState) (log : List CallLogEntry) (o b : Int),
      (b ≤ sst.lastTotalBlocked →
        processStatsForCallLog now sst log (mkStats o b) =
          ({ lastTotalOutgoing := o, lastTotalBlocked := b }, log)) ∧
      (sst.lastTotalBlocked < b →
        processStatsForCallLog now sst log (mkStats o b) =
          ({ lastTotalOutgoing := o, lastTotalBlocked := b },
            addBlockedEntries now (b - sst.lastTotalBlocked).toNat log)) ∧
      (∀ (o₂ h : Int), b ≤ sst.lastTotalBlocked → b < h →
        processStatsForCallLog now
            (processStatsForCallLog now sst log (mkStats o b)).1
            (processStatsForCallLog now sst log (mkStats o b)).2 (mkStats o₂ h) =
          ({ lastTotalOutgoing := o₂, lastTotalBlocked := h },
            addBlockedEntries now (h - b).toNat log)) := by
  intro now sst log o b
  have key : ∀ (sst' : StatsTrackState) (log' : List CallLogEntry) (o'' b'' : Int),
      processStatsForCallLog now sst' log' (mkStats o'' b'') =
        ({ lastTotalOutgoing := o'', lastTotalBlocked := b'' },
          if b'' > sst'.lastTotalBlocked then
            addBlockedEntries now (b'' - sst'.lastTotalBlocked).toNat log'
          else log') := by
    intro sst' log' o'' b''
    rfl
  refine ⟨?_, ?_, ?_⟩
  · intro h
    rw [key, if_neg (not_lt.mpr h)]
  · intro h
    rw [key, if_pos h]
  · intro o₂ hh h1 h2
    rw [key sst log o b, if_neg (not_lt.mpr h1)]
    dsimp only
    rw [key]
    dsimp only
    rw [if_pos h2]

/-- Witness for C10: counter reset 5 to 3 appends nothing and rebaselines,
a later rise 3 to 5 appends two blocked entries. -/
theorem blocked_counter_c10_witness :
    processStatsForCallLog 7 ⟨4, 5⟩ [] (mkStats 4 3) = (⟨4, 3⟩, []) ∧
    processStatsForCallLog 7
        (processStatsForCallLog 7 ⟨4, 5⟩ [] (mkStats 4 3)).1
        (processStatsForCallLog 7 ⟨4, 5⟩ [] (mkStats 4 3)).2 (mkStats 6 5) =
      (⟨6, 5⟩, addBlockedEntries 7 2 []) :=
  ⟨(blocked_counter_c10 7 ⟨4, 5⟩ [] 4 3).1 (by decide),
   (blocked_counter_c10 7 ⟨4, 5⟩ [] 4 3).2.2 6 5 (by decide) (by decide)⟩

/-- The binding of a nested category `c` (wifi or call) after
`_merge_status_data`: when both the existing value and the update value at
`c` are dicts and the update's keys are unique, the merged binding is the
field-by-field overlay of the update onto the existing dict. -/
theorem dictGet?_mergeStatusData_nested (new : JDict) :
    ∀ (ex : JDict) (c : String) (e u : JDict),
      (c = "wifi" ∨ c = "call") →
      dictGet? ex c = some (.obj e) →
      dictGet? new c = some (.obj u) →
      (new.map Prod.fst).Nodup →
      dictGet? (mergeStatusData ex new) c = some (.obj (dictSetAll e u)) := by
  induction new with
  | nil =>
    intro ex c e u _ _ hnew _
    cases hnew
  | cons kv rest ih =>
    intro ex c e u hc hex hnew hnodup
    obtain ⟨k₁, v₁⟩ := kv
    have hkeys : k₁ ∉ rest.map Prod.fst ∧ (rest.map Prod.fst).Nodup :=
      List.nodup_cons.mp hnodup
    by_cases hk : k₁ = c
    · subst hk
      have hv : v₁ = Json.obj u := by simpa [dictGet?] using hnew
      subst hv
      have hkc : hasKey ex k₁ = true := hasKey_of_dictGet? ex k₁ _ hex
      have hstep : mergeStep ex (k₁, Json.obj u) = dictSet ex k₁ (Json.obj (dictSetAll e u)) := by
        rcases hc with hc | hc <;> subst hc <;> simp [mergeStep, hkc, hex]
      have hrest : ∀ kv' ∈ rest, kv'.1 ≠ k₁ := by
        intro x hx hxc
        exact hkeys.1 (hxc ▸ List.mem_map_of_mem Prod.fst hx)
      simp only [mergeStatusData, List.foldl_cons]
      rw [show rest.foldl mergeStep (mergeStep ex (k₁, Json.obj u)) = mergeStatusData (mergeStep ex (k₁, Json.obj u)) rest from rfl]
      rw [show mergeStatusData (mergeStep ex (k₁, Json.obj u)) rest = rest.foldl mergeStep (mergeStep ex (k₁, Json.obj u)) from rfl,
        dictGet?_foldl_mergeStep_ne rest _ k₁ hrest, hstep, dictGet?_dictSet_self]
    · have hnew' : dictGet? rest c = some (.obj u) := by
        simpa [dictGet?, hk] using hnew
      have hex' : dictGet? (mergeStep ex (k₁, v₁)) c = some (.obj e) := by
        rw [dictGet?_mergeStep_ne ex (k₁, v₁) c hk]
        exact hex
      simpa [mergeStatusData, List.foldl_cons] using
        ih (mergeStep ex (k₁, v₁)) c e u hc hex' hnew' hkeys.2

/-- Claim C2: merging a partial status update never removes a top-level
key; for the nested categories wifi and call with dict values on both
sides, nested keys absent from the update keep their previous values; and
the spec's concrete example merges as specified. -/
theorem merge_preserve_c2 :
    (∀ (existing new : JDict) (k : String),
        hasKey existing k = true → hasKey (mergeStatusData existing new) k = true) ∧
    (∀ (existing new : JDict) (c : String) (e u : JDict),
        (c = "wifi" ∨ c = "call") →
        dictGet? existing c = some (.obj e) →
        dictGet? new c = some (.obj u) →
        (new.map Prod.fst).Nodup →
        dictGet? (mergeStatusData existing new) c = some (.obj (dictSetAll e u)) ∧
        ∀ k, hasKey u k = false → dictGet? (dictSetAll e u) k = dictGet? e k) ∧
    mergeStatusData
        [("call", .obj [("id", .num 7), ("number", .str "555")]),
         ("wifi", .obj [("rssi", .num (-40))])]
        [("call", .obj [("number", .str "556")])] =
      [("call", .obj [("id", .num 7), ("number", .str "556")]),
       ("wifi", .obj [("rssi", .num (-40))])] :=
  ⟨hasKey_mergeStatusData,
   fun ex new c e u hc hex hnew hnd =>
     ⟨dictGet?_mergeStatusData_nested new ex c e u hc hex hnew hnd,
      fun k hk => dictGet?_dictSetAll_not_mem u e k hk⟩,
   rfl⟩

/-- Witness for C2 at the spec's example: key preservation and the nested
call merge, concretely. -/
theorem merge_preserve_c2_witness :
    hasKey (mergeStatusData [("free_heap", Json.num 1)] [("state", Json.str "Idle")]) "free_heap" = true ∧
    dictGet? (mergeStatusData
        [("call", Json.obj [("id", Json.num 7), ("number", Json.str "555")])]
        [("call", Json.obj [("number", Json.str "556")])]) "call" =
      some (Json.obj (dictSetAll [("id", Json.num 7), ("number", Json.str "555")]
        [("number", Json.str "556")])) :=
  ⟨merge_preserve_c2.1 [("free_heap", Json.num 1)] [("state", Json.str "Idle")] "free_heap" rfl,
   (merge_preserve_c2.2.1 [("call", Json.obj [("id", Json.num 7), ("number", Json.str "555")])]
      [("call", Json.obj [("number", Json.str "556")])] "call"
      [("id", Json.num 7), ("number", Json.str "555")] [("number", Json.str "556")]
      (Or.inr rfl) rfl rfl (by decide)).1⟩

/-- Claim C4 counterexample: an empty comma token is not rejected — the
duration loop skips empty tokens, so "500,,600" parses successfully
instead of failing. -/
theorem nonint_token_c4_counterexample :
    parse_ring_pattern "500,,600" = some ([500, 600], 1) ∧
    parse_ring_pattern "500,,600" ≠ none :=
  ⟨by decide, by decide⟩

/-- Claim C4 (amended): a non-empty comma token that is not an integer
makes the parser reject the whole input, but empty tokens (as produced by
",," or a trailing comma) are skipped rather than rejected. -/
theorem nonint_token_c4 :
    (∀ (s main : String) (r : Int),
        splitRepeatSuffix (pyStrip s) = some (main, r) →
        (∃ p ∈ splitChar ',' main.toList,
            pyStripList p ≠ [] ∧ pyIntList (pyStripList p) = none) →
        parse_ring_pattern s = none) ∧
    parse_ring_pattern "500,," = some ([500], 1) ∧
    parse_ring_pattern ",600," = some ([600], 1) := by
  refine ⟨?_, by decide, by decide⟩
  intro s main r hsplit hbad
  by_cases hs : s = ""
  · simp [parse_ring_pattern, hs]
  · have hd := parseDurations_none_of_bad _ hbad
    simp only [parse_ring_pattern, if_neg hs]
    by_cases hps : pyStrip s = ""
    · rw [if_pos hps]
    · rw [if_neg hps, hsplit]
      dsimp only
      split
      · rfl
      · rw [hd]

/-- Witness for C4: a non-integer token rejects via the amended theorem,
an empty token is skipped. -/
theorem nonint_token_c4_witness :
    parse_ring_pattern "500,abc" = none ∧ parse_ring_pattern "500,," = some ([500], 1) :=
  ⟨nonint_token_c4.1 "500,abc" "500,abc" 1 (by decide)
      ⟨"abc".toList, by decide, by decide, by decide⟩,
   nonint_token_c4.2.1⟩

/-- Claim C6 counterexample: once an earlier cycle has populated the
snapshot with a status category, a refresh cycle in which both fetches
fail does NOT report failure — it returns the stale snapshot instead of
raising a retryable update failure. -/
theorem both_fail_c6_counterexample :
    (asyncUpdateData 0 ⟨initialCallTrackState, initialStatsTrackState, []⟩
        [("status", Json.obj [])] none none).1 =
      some [("status", Json.obj []), ("call_log", Json.arr [])] ∧
    (asyncUpdateData 0 ⟨initialCallTrackState, initialStatsTrackState, []⟩
        [("status", Json.obj [])] none none).1 ≠ none := by
  constructor
  · rfl
  · intro h
    rw [show (asyncUpdateData 0 ⟨initialCallTrackState, initialStatsTrackState, []⟩
        [("status", Json.obj [])] none none).1 =
      some [("status", Json.obj []), ("call_log", Json.arr [])] from rfl] at h
    exact Option.noConfusion h

/-- Claim C6 (amended): a cycle in which both fetches fail leaves the
coordinator's call-log state untouched (the session is never torn down),
and it raises a retryable update failure exactly when the snapshot still
holds neither a status nor a stats category — in particular on the first
cycle of a fresh session. -/
theorem both_fail_c6 :
    ∀ (now : Nat) (cs : CoordState) (prior : JDict),
      (asyncUpdateData now cs prior none none).2 = cs ∧
      ((asyncUpdateData now cs prior none none).1 = none ↔
        hasKey prior "status" = false ∧ hasKey prior "stats" = false) := by
  intro now cs prior
  have hst : hasKey (dictSet prior "call_log" (renderCallLog cs.callLog)) "status" =
      hasKey prior "status" := hasKey_dictSet_ne prior "call_log" "status" _ (by decide)
  have hsa : hasKey (dictSet prior "call_log" (renderCallLog cs.callLog)) "stats" =
      hasKey prior "stats" := hasKey_dictSet_ne prior "call_log" "stats" _ (by decide)
  constructor
  · simp only [asyncUpdateData]
    split <;> rfl
  · cases h1 : hasKey prior "status" <;> cases h2 : hasKey prior "stats" <;>
      simp [asyncUpdateData, hst, hsa, h1, h2]

/-- Claim C7: when a fetch of one polled category fails, the snapshot
binding of that category is unchanged, and every category other than the
two polled ones and the derived call_log is unchanged by any refresh
cycle. -/
theorem fetch_failure_frame_c7 :
    ∀ (now : Nat) (cs : CoordState) (prior : JDict) (statusRes statsRes : Option Json) (d : JDict),
      (asyncUpdateData now cs prior statusRes statsRes).1 = some d →
      (statusRes = none → dictGet? d "status" = dictGet? prior "status") ∧
      (statsRes = none → dictGet? d "stats" = dictGet? prior "stats") ∧
      (∀ k, k ≠ "status" → k ≠ "stats" → k ≠ "call_log" →
        dictGet? d k = dictGet? prior k) := by
  intro now cs prior sRes tRes d hd
  cases sRes with
  | none =>
    cases tRes with
    | none =>
      simp only [asyncUpdateData] at hd
      split at hd
      · exact absurd hd (by simp)
      · have hdd := Option.some.inj hd
        subst hdd
        refine ⟨fun _ => ?_, fun _ => ?_, fun k hk1 hk2 hk3 => ?_⟩
        · exact dictGet?_dictSet_ne prior "call_log" "status" _ (by decide)
        · exact dictGet?_dictSet_ne prior "call_log" "stats" _ (by decide)
        · exact dictGet?_dictSet_ne prior "call_log" k _ hk3
    | some t =>
      simp only [asyncUpdateData] at hd
      split at hd
      · exact absurd hd (by simp)
      · have hdd := Option.some.inj hd
        subst hdd
        refine ⟨fun _ => ?_, fun ht => absurd ht (by simp), fun k hk1 hk2 hk3 => ?_⟩
        · rw [dictGet?_dictSet_ne _ "call_log" "status" _ (by decide),
            dictGet?_dictSet_ne _ "stats" "status" _ (by decide)]
        · rw [dictGet?_dictSet_ne _ "call_log" k _ hk3,
            dictGet?_dictSet_ne _ "stats" k _ hk2]
  | some s =>
    cases tRes with
    | none =>
      simp only [asyncUpdateData] at hd
      split at hd
      · exact absurd hd (by simp)
      · have hdd := Option.some.inj hd
        subst hdd
        refine ⟨fun hs => absurd hs (by simp), fun _ => ?_, fun k hk1 hk2 hk3 => ?_⟩
        · rw [dictGet?_dictSet_ne _ "call_log" "stats" _ (by decide),
            dictGet?_dictSet_ne _ "status" "stats" _ (by decide)]
        · rw [dictGet?_dictSet_ne _ "call_log" k _ hk3,
            dictGet?_dictSet_ne _ "status" k _ hk1]
    | some t =>
      simp only [asyncUpdateData] at hd
      split at hd
      · exact absurd hd (by simp)
      · have hdd := Option.some.inj hd
        subst hdd
        refine ⟨fun hs => absurd hs (by simp), fun ht => absurd ht (by simp),
          fun k hk1 hk2 hk3 => ?_⟩
        rw [dictGet?_dictSet_ne _ "call_log" k _ hk3,
          dictGet?_dictSet_ne _ "stats" k _ hk2,
          dictGet?_dictSet_ne _ "status" k _ hk1]

/-- Witness for C7: with a populated snapshot, a successful status fetch
and a failed stats fetch leave the stale stats and the untouched
phonebook category intact. -/
theorem fetch_failure_frame_c7_witness :
    dictGet? [("phonebook", Json.str "pb"), ("stats", Json.num 1), ("status", Json.obj []),
        ("call_log", Json.arr [])] "phonebook" =
      dictGet? [("phonebook", Json.str "pb"), ("stats", Json.num 1)] "phonebook" ∧
    dictGet? [("phonebook", Json.str "pb"), ("stats", Json.num 1), ("status", Json.obj []),
        ("call_log", Json.arr [])] "stats" =
      dictGet? [("phonebook", Json.str "pb"), ("stats", Json.num 1)] "stats" :=
  have h := fetch_failure_frame_c7 0 ⟨initialCallTrackState, initialStatsTrackState, []⟩
    [("phonebook", Json.str "pb"), ("stats", Json.num 1)] (some (Json.obj [])) none
    [("phonebook", Json.str "pb"), ("stats", Json.num 1), ("status", Json.obj []),
      ("call_log", Json.arr [])] rfl
  ⟨h.2.2 "phonebook" (by decide) (by decide) (by decide), h.2.1 rfl⟩

end Tsury
